import Mathlib

/-!
Shallow embedding of the multimodal-embeddings orchestration script
(`index.js`).  The script embeds a fixed catalog of images and texts,
stores the (vector, document) pairs in a vector store, runs one text
similarity query, renders the results (printing text, writing decoded
images to an output directory), and persists the store.

External collaborators (the remote embedding service, the Faiss store's
nearest-neighbor search, the filesystem) are modelled as parameters or
as explicit state: the embedder is a pair of fallible functions, the
store is the list of pairs it holds, the filesystem is a snapshot record,
and every observable action is recorded in an event trace.
-/

namespace Multimodal

/-- Raw file bytes, each in 0..255. -/
abbrev Bytes := List Nat

/-- Metadata attached to a stored document: the JS object
`{id, mediaType, path?}` built by `addImage` / `addText`. -/
structure Metadata where
  id : Nat
  mediaType : String
  path : Option String
deriving DecidableEq, Repr

/-- A langchain `Document`: page content plus metadata. -/
structure Document where
  pageContent : String
  metadata : Metadata
deriving DecidableEq, Repr

/-- One entry of the output directory: its name, whether it is itself a
directory, and (for regular files) its byte content. -/
structure Entry where
  name : String
  isDir : Bool
  content : Bytes
deriving DecidableEq, Repr

/-- Observable actions of a run: filesystem reads and writes, embedding
calls, store operations and console output. -/
inductive Event where
  | loadStore
  | newStore
  | readFile (p : String)
  | embedImage (img : Bytes)
  | embedText (t : String)
  | addVectors (id : Nat)
  | log (msg : String)
  | unlink (name : String)
  | searchCall (k : Nat)
  | printMetadata (m : Metadata)
  | printText (s : String)
  | writeOutput (filename : String)
  | saveStore
deriving DecidableEq, Repr

/-- The vector store's contents: (vector, document) pairs in insertion
order.  `V` is the (opaque) vector type produced by the embedder. -/
abbrev Store (V : Type) := List (V × Document)

/-- The external embedding service: either call may fail. -/
structure Embedder (V : Type) where
  embedImageQuery : Bytes → Except String V
  embedQuery : String → Except String V

/-- Snapshot of the world at startup: whether a persisted store exists at
the configured path, what loading it would yield, the image files, and
the state of the `output` directory (`none` = the directory is missing). -/
structure FS (V : Type) where
  storeExists : Bool
  loaded : Store V
  imageFiles : String → Option Bytes
  output : Option (List Entry)

/-- Result of a whole run: final store contents, final output directory,
the event trace, and the uncaught error if any. -/
structure RunResult (V : Type) where
  store : Store V
  output : Option (List Entry)
  events : List Event
  err : Option String

/-! ## Base64 (Buffer.toString("base64") at ingestion, the "base64"
write encoding at rendering) -/

/-- The base64 alphabet. -/
def b64Table : List Char :=
  ['A', 'B', 'C', 'D', 'E', 'F', 'G', 'H', 'I', 'J', 'K', 'L', 'M',
   'N', 'O', 'P', 'Q', 'R', 'S', 'T', 'U', 'V', 'W', 'X', 'Y', 'Z',
   'a', 'b', 'c', 'd', 'e', 'f', 'g', 'h', 'i', 'j', 'k', 'l', 'm',
   'n', 'o', 'p', 'q', 'r', 's', 't', 'u', 'v', 'w', 'x', 'y', 'z',
   '0', '1', '2', '3', '4', '5', '6', '7', '8', '9', '+', '/']

/-- Character for a sextet. -/
def tbl (n : Nat) : Char := b64Table.getD n 'A'

/-- Sextet for a character (its index in the alphabet). -/
def dtbl (c : Char) : Nat := b64Table.indexOf c

/-- Base64-encode a byte list, with `=` padding. -/
def encB64 : Bytes → List Char
  | [] => []
  | [a] => [tbl (a / 4), tbl (a % 4 * 16), '=', '=']
  | [a, b] => [tbl (a / 4), tbl (a % 4 * 16 + b / 16), tbl (b % 16 * 4), '=']
  | a :: b :: c :: rest =>
      tbl (a / 4) :: tbl (a % 4 * 16 + b / 16) :: tbl (b % 16 * 4 + c / 64) ::
        tbl (c % 64) :: encB64 rest

/-- Base64-decode a character list (inverse of `encB64` on its range). -/
def decB64 : List Char → Bytes
  | x :: y :: z :: w :: rest =>
      if rest.isEmpty then
        if z = '=' then [dtbl x * 4 + dtbl y / 16]
        else if w = '=' then
          [dtbl x * 4 + dtbl y / 16, dtbl y % 16 * 16 + dtbl z / 4]
        else
          [dtbl x * 4 + dtbl y / 16, dtbl y % 16 * 16 + dtbl z / 4,
           dtbl z % 4 * 64 + dtbl w]
      else
        (dtbl x * 4 + dtbl y / 16) :: (dtbl y % 16 * 16 + dtbl z / 4) ::
          (dtbl z % 4 * 64 + dtbl w) :: decB64 rest
  | _ => []

/-! ## The orchestration script -/

variable {V S : Type}

/-- The fixed image catalog (the `images` array in `addItemsToVectorStore`). -/
def images : List String :=
  ["images/dog.jpeg", "images/cat.jpg", "images/parrot.jpg",
   "images/iphone.jpeg", "images/steve.jpeg", "images/airpod.jpeg"]

/-- The fixed text catalog (the `texts` array in `addItemsToVectorStore`). -/
def texts : List String :=
  ["Dogs are domesticated mammals.",
   "Apple Inc. is an American multinational technology company.",
   "Steve Jobs was the chairman, chief executive officer, and co-founder of Apple Inc."]

/-- The JS expression `p.split("/").pop()`: the last slash-separated
segment of a path. -/
def lastSegment (p : String) : String := (p.splitOn "/").getLastD ""

/-- `fs.writeFileSync` into a directory: create the named regular file,
or overwrite an existing entry of that name. -/
def writeEntry (es : List Entry) (name : String) (content : Bytes) : List Entry :=
  if es.any (fun e => e.name = name) then
    es.map (fun e => if e.name = name then ⟨name, false, content⟩ else e)
  else es ++ [⟨name, false, content⟩]

/-- `fs.writeFileSync` when the target directory may be missing: writing
into a missing directory throws. -/
def writeFileOut (out : Option (List Entry)) (name : String) (content : Bytes) :
    Option (List Entry) × Option String :=
  match out with
  | none => (none, some "ENOENT: no such directory")
  | some es => (some (writeEntry es name content), none)

/-- The `forEach` body of `clearDirectory`: `fs.unlinkSync` each listed
entry in order.  `unlinkSync` throws on an entry that is itself a
directory, leaving the remaining entries in place. -/
def unlinkEach : List Entry → List Entry × List Event × Option String
  | [] => ([], [], none)
  | e :: rest =>
      if e.isDir then (e :: rest, [], some "EPERM: unlink of a directory")
      else
        match unlinkEach rest with
        | (d, evs, r) => (d, Event.unlink e.name :: evs, r)

/-- `clearDirectory`: `fs.readdirSync` the directory (throwing when it is
missing), then unlink every listed entry. -/
def clearDirectory (d : Option (List Entry)) :
    Option (List Entry) × List Event × Option String :=
  match d with
  | none => (none, [], some "ENOENT: no such directory")
  | some es =>
      match unlinkEach es with
      | (es2, evs, r) => (some es2, evs, r)

/-- `addImage`: read the image file, embed it, wrap the base64-encoded
bytes in a `Document` with `{id, mediaType: "image", path}` metadata and
append the (vector, document) pair to the store. -/
def addImage (emb : Embedder V) (files : String → Option Bytes) (store : Store V)
    (p : String) (id : Nat) : Store V × List Event × Option String :=
  match files p with
  | none => (store, [Event.readFile p], some "ENOENT: no such file")
  | some img =>
    match emb.embedImageQuery img with
    | .error e => (store, [Event.readFile p, Event.embedImage img], some e)
    | .ok vectors =>
        (store ++ [(vectors, ⟨String.mk (encB64 img), ⟨id, "image", some p⟩⟩)],
         [Event.readFile p, Event.embedImage img, Event.addVectors id,
          Event.log ("Image " ++ p ++ " added.")], none)

/-- `addText`: embed the text, wrap it in a `Document` with
`{id, mediaType: "text"}` metadata (no `path` field) and append the
(vector, document) pair to the store. -/
def addText (emb : Embedder V) (store : Store V) (t : String) (id : Nat) :
    Store V × List Event × Option String :=
  match emb.embedQuery t with
  | .error e => (store, [Event.embedText t], some e)
  | .ok vectors =>
      (store ++ [(vectors, ⟨t, ⟨id, "text", none⟩⟩)],
       [Event.embedText t, Event.addVectors id,
        Event.log ("Text \"" ++ t ++ "\" added.")], none)

/-- The image loop of `addItemsToVectorStore`: `addImage` each path with
a counter starting at `id`; an exception aborts the loop. -/
def ingestImages (emb : Embedder V) (files : String → Option Bytes) :
    List String → Store V → Nat → Store V × List Event × Option String
  | [], store, _ => (store, [], none)
  | p :: rest, store, id =>
      match addImage emb files store p id with
      | (s1, ev1, some e) => (s1, ev1, some e)
      | (s1, ev1, none) =>
          match ingestImages emb files rest s1 (id + 1) with
          | (s2, ev2, r) => (s2, ev1 ++ ev2, r)

/-- The text loop of `addItemsToVectorStore`: `addText` each string with
a counter starting at `id`; an exception aborts the loop. -/
def ingestTexts (emb : Embedder V) :
    List String → Store V → Nat → Store V × List Event × Option String
  | [], store, _ => (store, [], none)
  | t :: rest, store, id =>
      match addText emb store t id with
      | (s1, ev1, some e) => (s1, ev1, some e)
      | (s1, ev1, none) =>
          match ingestTexts emb rest s1 (id + 1) with
          | (s2, ev2, r) => (s2, ev1 ++ ev2, r)

/-- `addItemsToVectorStore`: if no persisted store exists at the
configured path, ingest the image catalog with ids from 0 and then the
text catalog with ids from `images.length`; otherwise do nothing. -/
def addItemsToVectorStore (emb : Embedder V) (files : String → Option Bytes)
    (storeExists : Bool) (store : Store V) : Store V × List Event × Option String :=
  if storeExists then (store, [], none)
  else
    match ingestImages emb files images store 0 with
    | (s1, ev1, some e) => (s1, ev1, some e)
    | (s1, ev1, none) =>
        match ingestTexts emb texts s1 images.length with
        | (s2, ev2, r) => (s2, ev1 ++ ev2, r)

/-- `printResults`: for each (document, score) result in order, print the
metadata; for a text document also print its content; for an image
document decode its base64 content and write it to the output directory
under the last segment of its stored path. -/
def printResults : List (Document × S) → Option (List Entry) →
    Option (List Entry) × List Event × Option String
  | [], out => (out, [], none)
  | pr :: rest, out =>
      if pr.1.metadata.mediaType = "text" then
        match printResults rest out with
        | (o, evs, r) =>
            (o, Event.printMetadata pr.1.metadata :: Event.printText pr.1.pageContent :: evs, r)
      else if pr.1.metadata.mediaType = "image" then
        match pr.1.metadata.path with
        | none => (out, [Event.printMetadata pr.1.metadata],
                   some "TypeError: path is undefined")
        | some p =>
            match writeFileOut out (lastSegment p) (decB64 pr.1.pageContent.data) with
            | (out1, some e) => (out1, [Event.printMetadata pr.1.metadata], some e)
            | (out1, none) =>
                match printResults rest out1 with
                | (o, evs, r) =>
                    (o, Event.printMetadata pr.1.metadata ::
                        Event.writeOutput (lastSegment p) :: evs, r)
      else
        match printResults rest out with
        | (o, evs, r) => (o, Event.printMetadata pr.1.metadata :: evs, r)

/-- `textSimilaritySearch`: clear the output directory, embed the query
text, ask the store for the top-`k` results, and render them. -/
def textSimilaritySearch (emb : Embedder V)
    (sf : V → Nat → Except String (List (Document × S)))
    (out : Option (List Entry)) (text : String) (k : Nat) :
    Option (List Entry) × List Event × Option String :=
  match clearDirectory out with
  | (out1, evC, some e) => (out1, evC, some e)
  | (out1, evC, none) =>
      match emb.embedQuery text with
      | .error e =>
          (out1, evC ++ [Event.log "Performing text similarity search.",
                         Event.embedText text], some e)
      | .ok v =>
          match sf v k with
          | .error e =>
              (out1, evC ++ [Event.log "Performing text similarity search.",
                             Event.embedText text, Event.searchCall k], some e)
          | .ok results =>
              match printResults results out1 with
              | (out2, evP, r) =>
                  (out2, evC ++ [Event.log "Performing text similarity search.",
                                 Event.embedText text, Event.searchCall k,
                                 Event.log ("Similarity search results for text query: " ++ text)]
                            ++ evP, r)

/-- `imageSimilaritySearch`: clear the output directory, read and embed
the query image, ask the store for the top-`k` results, and render them. -/
def imageSimilaritySearch (emb : Embedder V)
    (sf : V → Nat → Except String (List (Document × S)))
    (files : String → Option Bytes) (out : Option (List Entry))
    (p : String) (k : Nat) :
    Option (List Entry) × List Event × Option String :=
  match clearDirectory out with
  | (out1, evC, some e) => (out1, evC, some e)
  | (out1, evC, none) =>
      match files p with
      | none =>
          (out1, evC ++ [Event.log "Performing image similarity search.",
                         Event.readFile p], some "ENOENT: no such file")
      | some img =>
          match emb.embedImageQuery img with
          | .error e =>
              (out1, evC ++ [Event.log "Performing image similarity search.",
                             Event.readFile p, Event.embedImage img], some e)
          | .ok v =>
              match sf v k with
              | .error e =>
                  (out1, evC ++ [Event.log "Performing image similarity search.",
                                 Event.readFile p, Event.embedImage img,
                                 Event.searchCall k], some e)
              | .ok results =>
                  match printResults results out1 with
                  | (out2, evP, r) =>
                      (out2, evC ++ [Event.log "Performing image similarity search.",
                                     Event.readFile p, Event.embedImage img,
                                     Event.searchCall k,
                                     Event.log ("Similarity search results for image query: " ++ p)]
                                ++ evP, r)

/-- The whole run: initialize the store handle (load if the persisted
store exists, else a fresh empty store), run `addItemsToVectorStore`,
run the hardcoded `textSimilaritySearch("Mammals", 1)`, then save the
store.  An uncaught exception stops the run at that point. -/
def runMain (emb : Embedder V)
    (sf : Store V → V → Nat → Except String (List (Document × S)))
    (fs : FS V) : RunResult V :=
  match addItemsToVectorStore emb fs.imageFiles fs.storeExists
      (if fs.storeExists then fs.loaded else []) with
  | (store1, ev1, some e) =>
      ⟨store1, fs.output,
       (if fs.storeExists then Event.loadStore else Event.newStore) :: ev1, some e⟩
  | (store1, ev1, none) =>
      match textSimilaritySearch emb (sf store1) fs.output "Mammals" 1 with
      | (out2, evQ, some e) =>
          ⟨store1, out2,
           ((if fs.storeExists then Event.loadStore else Event.newStore) :: ev1) ++ evQ,
           some e⟩
      | (out2, evQ, none) =>
          ⟨store1, out2,
           ((if fs.storeExists then Event.loadStore else Event.newStore) :: ev1) ++ evQ
             ++ [Event.saveStore], none⟩

/-! ## Spec-side rendering (for the refinement claim about `printResults`)

These two definitions follow the spec's words: "For each result: print
its metadata; if mediaType is text, also print the text content; if
mediaType is image, decode the stored base64 content and write it to the
output directory under the filename extracted from the stored path's
last path segment." -/

/-- Per-result console/trace effect, as the spec words it. -/
def renderEventsSpec (d : Document) : List Event :=
  Event.printMetadata d.metadata ::
    (if d.metadata.mediaType = "text" then [Event.printText d.pageContent]
     else if d.metadata.mediaType = "image" then
       [Event.writeOutput (lastSegment (d.metadata.path.getD ""))]
     else [])

/-- Per-result effect on the output directory, as the spec words it. -/
def renderOutSpec (es : List Entry) (d : Document) : List Entry :=
  if d.metadata.mediaType = "image" then
    writeEntry es (lastSegment (d.metadata.path.getD "")) (decB64 d.pageContent.data)
  else es

/-- Fold of `renderOutSpec` over a result list, in order. -/
def renderAllOutSpec : List Entry → List (Document × S) → List Entry
  | es, [] => es
  | es, pr :: rest => renderAllOutSpec (renderOutSpec es pr.1) rest

/-- Concatenation of `renderEventsSpec` over a result list, in order. -/
def renderAllEventsSpec : List (Document × S) → List Event
  | [] => []
  | pr :: rest => renderEventsSpec pr.1 ++ renderAllEventsSpec rest

/-! ## Expected ingestion metadata -/

/-- Metadata assigned to a list of image paths, ids counting up from `id`. -/
def imageMetas (id : Nat) : List String → List Metadata
  | [] => []
  | p :: rest => ⟨id, "image", some p⟩ :: imageMetas (id + 1) rest

/-- Metadata assigned to a list of texts, ids counting up from `id`. -/
def textMetas (id : Nat) : List String → List Metadata
  | [] => []
  | _ :: rest => ⟨id, "text", none⟩ :: textMetas (id + 1) rest

/-! ## Event classifiers -/

/-- Events that the ingestion phase can emit. -/
def ingestEvent : Event → Bool
  | .readFile _ | .embedImage _ | .embedText _ | .addVectors _ | .log _ => true
  | _ => false

/-- Events that a query (clear, embed, search, render) can emit. -/
def queryEvent : Event → Bool
  | .unlink _ | .log _ | .embedText _ | .embedImage _ | .readFile _
  | .searchCall _ | .printMetadata _ | .printText _ | .writeOutput _ => true
  | _ => false

/-! ## Concrete instantiations (used by the witnesses) -/

/-- A trivial always-successful embedder over the unit vector type. -/
def emb0 : Embedder Unit := ⟨fun _ => .ok (), fun _ => .ok ()⟩

/-- A filesystem view where every image file exists and is empty. -/
def files0 : String → Option Bytes := fun _ => some []

/-- A filesystem view where no image file exists. -/
def filesNone : String → Option Bytes := fun _ => none

/-- A filesystem view holding one concrete image. -/
def files1 : String → Option Bytes :=
  fun p => if p = "images/dog.jpeg" then some [1, 2, 3] else none

/-- A search returning no results. -/
def sf0 : Store Unit → Unit → Nat → Except String (List (Document × Nat)) :=
  fun _ _ _ => .ok []

/-- The document `addImage` builds for `files1 "images/dog.jpeg"` with id 0. -/
def d0 : Document := ⟨"AQID", ⟨0, "image", some "images/dog.jpeg"⟩⟩

/-- A search always returning the stored document `d0`. -/
def sf1 : Unit → Nat → Except String (List (Document × Nat)) :=
  fun _ _ => .ok [(d0, 0)]

/-- Startup world with no persisted store and an existing empty output
directory. -/
def fs0 : FS Unit := ⟨false, [], files0, some []⟩

/-- Startup world where the persisted store already exists. -/
def fsT : FS Unit := ⟨true, [((), d0)], files0, some []⟩

/-! ## Base64 lemmas -/

theorem b64Table_length : b64Table.length = 64 := rfl

theorem dtbl_tbl : ∀ s : Nat, s < 64 → dtbl (tbl s) = s := by decide

theorem tbl_ne (s : Nat) : tbl s ≠ '=' := by
  by_cases h : s < 64
  · have h64 : ∀ t : Nat, t < 64 → tbl t ≠ '=' := by decide
    exact h64 s h
  · have hlen : b64Table.length ≤ s := by rw [b64Table_length]; omega
    unfold tbl
    rw [List.getD_eq_default _ _ hlen]
    decide

theorem encB64_cons_shape (x : Nat) (xs : Bytes) :
    ∃ c1 c2 c3 c4 t, encB64 (x :: xs) = c1 :: c2 :: c3 :: c4 :: t := by
  match xs with
  | [] => exact ⟨_, _, _, _, _, rfl⟩
  | [y] => exact ⟨_, _, _, _, _, rfl⟩
  | y :: z :: r => exact ⟨_, _, _, _, _, rfl⟩

/-- Unfolding `decB64` on a chunk followed by a nonempty tail. -/
theorem decB64_chunk (x y z w r : Char) (rs : List Char) :
    decB64 (x :: y :: z :: w :: r :: rs) =
      (dtbl x * 4 + dtbl y / 16) :: (dtbl y % 16 * 16 + dtbl z / 4) ::
        (dtbl z % 4 * 64 + dtbl w) :: decB64 (r :: rs) := rfl

/-- Decoding is a left inverse of encoding on genuine byte lists. -/
theorem decB64_encB64 : ∀ l : Bytes, (∀ b ∈ l, b < 256) → decB64 (encB64 l) = l
  | [] => fun _ => rfl
  | [a] => fun h => by
      have ha : a < 256 := h a (by simp)
      simp only [encB64, decB64, List.isEmpty_nil, if_true]
      rw [dtbl_tbl (a / 4) (by omega), dtbl_tbl (a % 4 * 16) (by omega)]
      simp only [List.cons.injEq, and_true]
      omega
  | [a, b] => fun h => by
      have ha : a < 256 := h a (by simp)
      have hb : b < 256 := h b (by simp)
      simp only [encB64, decB64, List.isEmpty_nil, if_true]
      rw [if_neg (tbl_ne _)]
      rw [dtbl_tbl (a / 4) (by omega), dtbl_tbl (a % 4 * 16 + b / 16) (by omega),
        dtbl_tbl (b % 16 * 4) (by omega)]
      simp only [List.cons.injEq, and_true]
      omega
  | a :: b :: c :: rest => fun h => by
      have ha : a < 256 := h a (by simp)
      have hb : b < 256 := h b (by simp)
      have hc : c < 256 := h c (by simp)
      have ih := decB64_encB64 rest (fun x hx => h x (by simp [hx]))
      match rest, ih with
      | [], _ =>
          simp only [encB64, decB64, List.isEmpty_nil, if_true]
          rw [if_neg (tbl_ne _), if_neg (tbl_ne _)]
          rw [dtbl_tbl (a / 4) (by omega), dtbl_tbl (a % 4 * 16 + b / 16) (by omega),
            dtbl_tbl (b % 16 * 4 + c / 64) (by omega), dtbl_tbl (c % 64) (by omega)]
          simp only [List.cons.injEq, and_true]
          refine ⟨by omega, by omega, by omega⟩
      | x :: xs, ih =>
          obtain ⟨c1, c2, c3, c4, t, hsh⟩ := encB64_cons_shape x xs
          have henc : encB64 (a :: b :: c :: x :: xs) =
              tbl (a / 4) :: tbl (a % 4 * 16 + b / 16) :: tbl (b % 16 * 4 + c / 64) ::
                tbl (c % 64) :: encB64 (x :: xs) := rfl
          rw [henc, hsh, decB64_chunk, ← hsh, ih]
          rw [dtbl_tbl (a / 4) (by omega), dtbl_tbl (a % 4 * 16 + b / 16) (by omega),
            dtbl_tbl (b % 16 * 4 + c / 64) (by omega), dtbl_tbl (c % 64) (by omega)]
          simp only [List.cons.injEq, true_and, and_true]
          refine ⟨by omega, by omega, by omega⟩

/-! ## Ingestion lemmas -/

theorem addImage_success (emb : Embedder V) (files : String → Option Bytes)
    (store : Store V) (p : String) (id : Nat) (s : Store V) (ev : List Event)
    (h : addImage emb files store p id = (s, ev, none)) :
    ∃ img v, files p = some img ∧ emb.embedImageQuery img = .ok v ∧
      s = store ++ [(v, ⟨String.mk (encB64 img), ⟨id, "image", some p⟩⟩)] := by
  cases hf : files p with
  | none => simp [addImage, hf] at h
  | some img =>
      cases he : emb.embedImageQuery img with
      | error e => simp [addImage, hf, he] at h
      | ok v =>
          simp only [addImage, hf, he, Prod.mk.injEq] at h
          exact ⟨img, v, rfl, he, h.1.symm⟩

theorem addText_success (emb : Embedder V) (store : Store V) (t : String) (id : Nat)
    (s : Store V) (ev : List Event)
    (h : addText emb store t id = (s, ev, none)) :
    ∃ v, emb.embedQuery t = .ok v ∧ s = store ++ [(v, ⟨t, ⟨id, "text", none⟩⟩)] := by
  cases he : emb.embedQuery t with
  | error e => simp [addText, he] at h
  | ok v =>
      simp only [addText, he, Prod.mk.injEq] at h
      exact ⟨v, rfl, h.1.symm⟩

theorem ingestImages_cons_fail (emb : Embedder V) (files : String → Option Bytes)
    (p : String) (rest : List String) (store : Store V) (id : Nat)
    (s1 : Store V) (ev1 : List Event) (e : String)
    (hA : addImage emb files store p id = (s1, ev1, some e)) :
    ingestImages emb files (p :: rest) store id = (s1, ev1, some e) := by
  rw [ingestImages, hA]

theorem ingestImages_cons_ok (emb : Embedder V) (files : String → Option Bytes)
    (p : String) (rest : List String) (store : Store V) (id : Nat)
    (s1 : Store V) (ev1 : List Event)
    (hA : addImage emb files store p id = (s1, ev1, none)) :
    ingestImages emb files (p :: rest) store id
      = ((ingestImages emb files rest s1 (id + 1)).1,
         ev1 ++ (ingestImages emb files rest s1 (id + 1)).2.1,
         (ingestImages emb files rest s1 (id + 1)).2.2) := by
  rw [ingestImages, hA]

theorem ingestTexts_cons_fail (emb : Embedder V)
    (t : String) (rest : List String) (store : Store V) (id : Nat)
    (s1 : Store V) (ev1 : List Event) (e : String)
    (hA : addText emb store t id = (s1, ev1, some e)) :
    ingestTexts emb (t :: rest) store id = (s1, ev1, some e) := by
  rw [ingestTexts, hA]

theorem ingestTexts_cons_ok (emb : Embedder V)
    (t : String) (rest : List String) (store : Store V) (id : Nat)
    (s1 : Store V) (ev1 : List Event)
    (hA : addText emb store t id = (s1, ev1, none)) :
    ingestTexts emb (t :: rest) store id
      = ((ingestTexts emb rest s1 (id + 1)).1,
         ev1 ++ (ingestTexts emb rest s1 (id + 1)).2.1,
         (ingestTexts emb rest s1 (id + 1)).2.2) := by
  rw [ingestTexts, hA]

theorem addItems_imgfail (emb : Embedder V) (files : String → Option Bytes)
    (store0 : Store V) (s1 : Store V) (ev1 : List Event) (e : String)
    (hI : ingestImages emb files images store0 0 = (s1, ev1, some e)) :
    addItemsToVectorStore emb files false store0 = (s1, ev1, some e) := by
  rw [addItemsToVectorStore, if_neg (by simp), hI]

theorem addItems_imgok (emb : Embedder V) (files : String → Option Bytes)
    (store0 : Store V) (s1 : Store V) (ev1 : List Event)
    (hI : ingestImages emb files images store0 0 = (s1, ev1, none)) :
    addItemsToVectorStore emb files false store0
      = ((ingestTexts emb texts s1 images.length).1,
         ev1 ++ (ingestTexts emb texts s1 images.length).2.1,
         (ingestTexts emb texts s1 images.length).2.2) := by
  rw [addItemsToVectorStore, if_neg (by simp), hI]

theorem ingestImages_success_map (emb : Embedder V) (files : String → Option Bytes) :
    ∀ (paths : List String) (store : Store V) (id : Nat) (s : Store V) (ev : List Event),
      ingestImages emb files paths store id = (s, ev, none) →
      s.map (fun q => q.2.metadata)
        = store.map (fun q => q.2.metadata) ++ imageMetas id paths := by
  intro paths
  induction paths with
  | nil =>
      intro store id s ev h
      simp only [ingestImages, Prod.mk.injEq] at h
      rw [← h.1]
      simp [imageMetas]
  | cons p rest ih =>
      intro store id s ev h
      rcases hA : addImage emb files store p id with ⟨s1, ev1, r1⟩
      cases r1 with
      | some e =>
          rw [ingestImages, hA] at h
          simp at h
      | none =>
          obtain ⟨img, v, _, _, hs1⟩ :=
            addImage_success emb files store p id s1 ev1 hA
          rw [ingestImages_cons_ok emb files p rest store id s1 ev1 hA] at h
          rcases hI : ingestImages emb files rest s1 (id + 1) with ⟨s2, ev2, r2⟩
          rw [hI] at h
          simp only [Prod.mk.injEq] at h
          obtain ⟨h1, _, h3⟩ := h
          subst h3
          have hrec := ih s1 (id + 1) s2 ev2 hI
          rw [← h1, hrec, hs1, imageMetas]
          simp [List.append_assoc]

theorem ingestTexts_success_map (emb : Embedder V) :
    ∀ (ts : List String) (store : Store V) (id : Nat) (s : Store V) (ev : List Event),
      ingestTexts emb ts store id = (s, ev, none) →
      s.map (fun q => q.2.metadata)
        = store.map (fun q => q.2.metadata) ++ textMetas id ts := by
  intro ts
  induction ts with
  | nil =>
      intro store id s ev h
      simp only [ingestTexts, Prod.mk.injEq] at h
      rw [← h.1]
      simp [textMetas]
  | cons t rest ih =>
      intro store id s ev h
      rcases hA : addText emb store t id with ⟨s1, ev1, r1⟩
      cases r1 with
      | some e =>
          rw [ingestTexts, hA] at h
          simp at h
      | none =>
          obtain ⟨v, _, hs1⟩ := addText_success emb store t id s1 ev1 hA
          rw [ingestTexts_cons_ok emb t rest store id s1 ev1 hA] at h
          rcases hI : ingestTexts emb rest s1 (id + 1) with ⟨s2, ev2, r2⟩
          rw [hI] at h
          simp only [Prod.mk.injEq] at h
          obtain ⟨h1, _, h3⟩ := h
          subst h3
          have hrec := ih s1 (id + 1) s2 ev2 hI
          rw [← h1, hrec, hs1, textMetas]
          simp [List.append_assoc]

theorem addItems_success_map (emb : Embedder V) (files : String → Option Bytes)
    (store0 : Store V) (s : Store V) (ev : List Event)
    (h : addItemsToVectorStore emb files false store0 = (s, ev, none)) :
    s.map (fun q => q.2.metadata)
      = store0.map (fun q => q.2.metadata)
        ++ (imageMetas 0 images ++ textMetas 6 texts) := by
  rcases hI : ingestImages emb files images store0 0 with ⟨s1, ev1, r1⟩
  cases r1 with
  | some e =>
      rw [addItems_imgfail emb files store0 s1 ev1 e hI] at h
      simp at h
  | none =>
      have hs1 := ingestImages_success_map emb files images store0 0 s1 ev1 hI
      rw [addItems_imgok emb files store0 s1 ev1 hI] at h
      rcases hT : ingestTexts emb texts s1 images.length with ⟨s2, ev2, r2⟩
      rw [hT] at h
      simp only [Prod.mk.injEq] at h
      obtain ⟨h1, _, h3⟩ := h
      subst h3
      have hs2 := ingestTexts_success_map emb texts s1 images.length s2 ev2 hT
      rw [← h1, hs2, hs1, List.append_assoc]
      rfl

theorem addImage_fail_store (emb : Embedder V) (files : String → Option Bytes)
    (store : Store V) (p : String) (id : Nat) (s1 : Store V) (ev1 : List Event) (e : String)
    (h : addImage emb files store p id = (s1, ev1, some e)) : s1 = store := by
  cases hf : files p with
  | none =>
      simp only [addImage, hf, Prod.mk.injEq] at h
      exact h.1.symm
  | some img =>
      cases he : emb.embedImageQuery img with
      | error e2 =>
          simp only [addImage, hf, he, Prod.mk.injEq] at h
          exact h.1.symm
      | ok v => simp [addImage, hf, he] at h

theorem addText_fail_store (emb : Embedder V)
    (store : Store V) (t : String) (id : Nat) (s1 : Store V) (ev1 : List Event) (e : String)
    (h : addText emb store t id = (s1, ev1, some e)) : s1 = store := by
  cases he : emb.embedQuery t with
  | error e2 =>
      simp only [addText, he, Prod.mk.injEq] at h
      exact h.1.symm
  | ok v => simp [addText, he] at h

/-! ## Membership lemmas: what a phase can put into the store -/

theorem addImage_mem (emb : Embedder V) (files : String → Option Bytes)
    (store : Store V) (p : String) (id : Nat) (vd : V × Document)
    (h : vd ∈ (addImage emb files store p id).1) :
    vd ∈ store ∨ (vd.2.metadata.mediaType = "image" ∧ ∃ q, vd.2.metadata.path = some q) := by
  cases hf : files p with
  | none =>
      left
      simpa [addImage, hf] using h
  | some img =>
      cases he : emb.embedImageQuery img with
      | error e =>
          left
          simpa [addImage, hf, he] using h
      | ok v =>
          simp only [addImage, hf, he, List.mem_append, List.mem_singleton] at h
          rcases h with h | h
          · exact Or.inl h
          · right
            subst h
            exact ⟨rfl, p, rfl⟩

theorem addText_mem (emb : Embedder V)
    (store : Store V) (t : String) (id : Nat) (vd : V × Document)
    (h : vd ∈ (addText emb store t id).1) :
    vd ∈ store ∨ (vd.2.metadata.mediaType = "text" ∧ vd.2.metadata.path = none) := by
  cases he : emb.embedQuery t with
  | error e =>
      left
      simpa [addText, he] using h
  | ok v =>
      simp only [addText, he, List.mem_append, List.mem_singleton] at h
      rcases h with h | h
      · exact Or.inl h
      · right
        subst h
        exact ⟨rfl, rfl⟩

theorem ingestImages_mem (emb : Embedder V) (files : String → Option Bytes) :
    ∀ (paths : List String) (store : Store V) (id : Nat) (vd : V × Document),
      vd ∈ (ingestImages emb files paths store id).1 →
      vd ∈ store ∨ (vd.2.metadata.mediaType = "image" ∧ ∃ q, vd.2.metadata.path = some q) := by
  intro paths
  induction paths with
  | nil =>
      intro store id vd h
      left
      simpa [ingestImages] using h
  | cons p rest ih =>
      intro store id vd h
      rcases hA : addImage emb files store p id with ⟨s1, ev1, r1⟩
      cases r1 with
      | some e =>
          rw [ingestImages_cons_fail emb files p rest store id s1 ev1 e hA] at h
          exact addImage_mem emb files store p id vd (by rw [hA]; exact h)
      | none =>
          rw [ingestImages_cons_ok emb files p rest store id s1 ev1 hA] at h
          have h1 : vd ∈ (ingestImages emb files rest s1 (id + 1)).1 := h
          rcases ih s1 (id + 1) vd h1 with h2 | h2
          · exact addImage_mem emb files store p id vd (by rw [hA]; exact h2)
          · exact Or.inr h2

theorem ingestTexts_mem (emb : Embedder V) :
    ∀ (ts : List String) (store : Store V) (id : Nat) (vd : V × Document),
      vd ∈ (ingestTexts emb ts store id).1 →
      vd ∈ store ∨ (vd.2.metadata.mediaType = "text" ∧ vd.2.metadata.path = none) := by
  intro ts
  induction ts with
  | nil =>
      intro store id vd h
      left
      simpa [ingestTexts] using h
  | cons t rest ih =>
      intro store id vd h
      rcases hA : addText emb store t id with ⟨s1, ev1, r1⟩
      cases r1 with
      | some e =>
          rw [ingestTexts_cons_fail emb t rest store id s1 ev1 e hA] at h
          exact addText_mem emb store t id vd (by rw [hA]; exact h)
      | none =>
          rw [ingestTexts_cons_ok emb t rest store id s1 ev1 hA] at h
          have h1 : vd ∈ (ingestTexts emb rest s1 (id + 1)).1 := h
          rcases ih s1 (id + 1) vd h1 with h2 | h2
          · exact addText_mem emb store t id vd (by rw [hA]; exact h2)
          · exact Or.inr h2

theorem addItems_mem (emb : Embedder V) (files : String → Option Bytes)
    (storeExists : Bool) (store0 : Store V) (vd : V × Document)
    (h : vd ∈ (addItemsToVectorStore emb files storeExists store0).1) :
    vd ∈ store0
    ∨ (vd.2.metadata.mediaType = "image" ∧ ∃ q, vd.2.metadata.path = some q)
    ∨ (vd.2.metadata.mediaType = "text" ∧ vd.2.metadata.path = none) := by
  cases storeExists with
  | true =>
      left
      simpa [addItemsToVectorStore] using h
  | false =>
      rcases hI : ingestImages emb files images store0 0 with ⟨s1, ev1, r1⟩
      cases r1 with
      | some e =>
          rw [addItems_imgfail emb files store0 s1 ev1 e hI] at h
          rcases ingestImages_mem emb files images store0 0 vd (by rw [hI]; exact h)
            with h2 | h2
          · exact Or.inl h2
          · exact Or.inr (Or.inl h2)
      | none =>
          rw [addItems_imgok emb files store0 s1 ev1 hI] at h
          have h1 : vd ∈ (ingestTexts emb texts s1 images.length).1 := h
          rcases ingestTexts_mem emb texts s1 images.length vd h1 with h2 | h2
          · rcases ingestImages_mem emb files images store0 0 vd (by rw [hI]; exact h2)
              with h3 | h3
            · exact Or.inl h3
            · exact Or.inr (Or.inl h3)
          · exact Or.inr (Or.inr h2)

/-! ## Run-level helpers -/

theorem runMain_store (emb : Embedder V)
    (sf : Store V → V → Nat → Except String (List (Document × S))) (fs : FS V) :
    (runMain emb sf fs).store
      = (addItemsToVectorStore emb fs.imageFiles fs.storeExists
          (if fs.storeExists then fs.loaded else [])).1 := by
  rcases hA : addItemsToVectorStore emb fs.imageFiles fs.storeExists
      (if fs.storeExists then fs.loaded else []) with ⟨s1, ev1, r1⟩
  cases r1 with
  | some e => simp [runMain, hA]
  | none =>
      rcases hQ : textSimilaritySearch emb (sf s1) fs.output "Mammals" 1
        with ⟨out2, evQ, rQ⟩
      cases rQ <;> simp [runMain, hA, hQ]

/-! ## Event classification lemmas -/

theorem unlinkEach_events_unlink :
    ∀ (es : List Entry) (ev : Event), ev ∈ (unlinkEach es).2.1 → ∃ n, ev = Event.unlink n := by
  intro es
  induction es with
  | nil => intro ev h; simp [unlinkEach] at h
  | cons e rest ih =>
      intro ev h
      by_cases hd : e.isDir
      · simp [unlinkEach, hd] at h
      · rcases hU : unlinkEach rest with ⟨d, evs, r⟩
        rw [unlinkEach] at h
        simp only [hd, if_false, Bool.false_eq_true, hU] at h
        rcases List.mem_cons.mp h with h1 | h1
        · exact ⟨e.name, h1⟩
        · exact ih ev (by rw [hU]; exact h1)

theorem clearDirectory_events_unlink (out : Option (List Entry)) (ev : Event)
    (h : ev ∈ (clearDirectory out).2.1) : ∃ n, ev = Event.unlink n := by
  cases out with
  | none => simp [clearDirectory] at h
  | some es =>
      rcases hU : unlinkEach es with ⟨d, evs, r⟩
      rw [clearDirectory, hU] at h
      exact unlinkEach_events_unlink es ev (by rw [hU]; exact h)

theorem printResults_events_query :
    ∀ (results : List (Document × S)) (out : Option (List Entry)) (ev : Event),
      ev ∈ (printResults results out).2.1 → queryEvent ev = true := by
  intro results
  induction results with
  | nil => intro out ev h; simp [printResults] at h
  | cons pr rest ih =>
      intro out ev h
      by_cases ht : pr.1.metadata.mediaType = "text"
      · rcases hP : printResults rest out with ⟨o, evs, r⟩
        rw [printResults] at h
        simp only [ht, if_true, hP] at h
        rcases List.mem_cons.mp h with h1 | h1
        · subst h1; rfl
        rcases List.mem_cons.mp h1 with h2 | h2
        · subst h2; rfl
        · exact ih out ev (by rw [hP]; exact h2)
      · by_cases hi : pr.1.metadata.mediaType = "image"
        · cases hp : pr.1.metadata.path with
          | none =>
              rw [printResults] at h
              simp only [ht, hi, hp, if_false, if_true, Bool.false_eq_true] at h
              rcases List.mem_singleton.mp h with h1
              subst h1; rfl
          | some p =>
              rcases hW : writeFileOut out (lastSegment p) (decB64 pr.1.pageContent.data)
                with ⟨out1, w⟩
              cases w with
              | some e =>
                  rw [printResults] at h
                  simp only [ht, hi, hp, hW, if_false, if_true, Bool.false_eq_true] at h
                  rcases List.mem_singleton.mp h with h1
                  subst h1; rfl
              | none =>
                  rcases hP : printResults rest out1 with ⟨o, evs, r⟩
                  rw [printResults] at h
                  simp only [ht, hi, hp, hW, hP, if_false, if_true, Bool.false_eq_true] at h
                  rcases List.mem_cons.mp h with h1 | h1
                  · subst h1; rfl
                  rcases List.mem_cons.mp h1 with h2 | h2
                  · subst h2; rfl
                  · exact ih out1 ev (by rw [hP]; exact h2)
        · rcases hP : printResults rest out with ⟨o, evs, r⟩
          rw [printResults] at h
          simp only [ht, hi, if_false, Bool.false_eq_true, hP] at h
          rcases List.mem_cons.mp h with h1 | h1
          · subst h1; rfl
          · exact ih out ev (by rw [hP]; exact h1)

theorem tss_events_query (emb : Embedder V)
    (sf : V → Nat → Except String (List (Document × S)))
    (out : Option (List Entry)) (text : String) (k : Nat) (ev : Event)
    (h : ev ∈ (textSimilaritySearch emb sf out text k).2.1) : queryEvent ev = true := by
  have hclear : ∀ e2 ∈ (clearDirectory out).2.1, queryEvent e2 = true := by
    intro e2 h2
    obtain ⟨n, hn⟩ := clearDirectory_events_unlink out e2 h2
    subst hn; rfl
  rcases hC : clearDirectory out with ⟨out1, evC, rC⟩
  cases rC with
  | some e =>
      simp only [textSimilaritySearch, hC] at h
      exact hclear ev (by rw [hC]; exact h)
  | none =>
      cases he : emb.embedQuery text with
      | error e =>
          simp only [textSimilaritySearch, hC, he] at h
          rcases List.mem_append.mp h with h1 | h1
          · exact hclear ev (by rw [hC]; exact h1)
          · rcases List.mem_cons.mp h1 with h2 | h2
            · subst h2; rfl
            rcases List.mem_singleton.mp h2 with h3
            subst h3; rfl
      | ok v =>
          cases hs : sf v k with
          | error e =>
              simp only [textSimilaritySearch, hC, he, hs] at h
              rcases List.mem_append.mp h with h1 | h1
              · exact hclear ev (by rw [hC]; exact h1)
              · rcases List.mem_cons.mp h1 with h2 | h2
                · subst h2; rfl
                rcases List.mem_cons.mp h2 with h3 | h3
                · subst h3; rfl
                rcases List.mem_singleton.mp h3 with h4
                subst h4; rfl
          | ok results =>
              rcases hP : printResults results out1 with ⟨out2, evP, rP⟩
              simp only [textSimilaritySearch, hC, he, hs, hP] at h
              rcases List.mem_append.mp h with h1 | h1
              · rcases List.mem_append.mp h1 with h2 | h2
                · exact hclear ev (by rw [hC]; exact h2)
                · rcases List.mem_cons.mp h2 with h3 | h3
                  · subst h3; rfl
                  rcases List.mem_cons.mp h3 with h4 | h4
                  · subst h4; rfl
                  rcases List.mem_cons.mp h4 with h5 | h5
                  · subst h5; rfl
                  rcases List.mem_singleton.mp h5 with h6
                  subst h6; rfl
              · exact printResults_events_query results out1 ev (by rw [hP]; exact h1)

theorem addImage_events_ingest (emb : Embedder V) (files : String → Option Bytes)
    (store : Store V) (p : String) (id : Nat) (ev : Event)
    (h : ev ∈ (addImage emb files store p id).2.1) : ingestEvent ev = true := by
  cases hf : files p with
  | none =>
      simp only [addImage, hf] at h
      rcases List.mem_singleton.mp h with h1
      subst h1; rfl
  | some img =>
      cases he : emb.embedImageQuery img with
      | error e =>
          simp only [addImage, hf, he] at h
          rcases List.mem_cons.mp h with h1 | h1
          · subst h1; rfl
          rcases List.mem_singleton.mp h1 with h2
          subst h2; rfl
      | ok v =>
          simp only [addImage, hf, he] at h
          rcases List.mem_cons.mp h with h1 | h1
          · subst h1; rfl
          rcases List.mem_cons.mp h1 with h2 | h2
          · subst h2; rfl
          rcases List.mem_cons.mp h2 with h3 | h3
          · subst h3; rfl
          rcases List.mem_singleton.mp h3 with h4
          subst h4; rfl

theorem addText_events_ingest (emb : Embedder V)
    (store : Store V) (t : String) (id : Nat) (ev : Event)
    (h : ev ∈ (addText emb store t id).2.1) : ingestEvent ev = true := by
  cases he : emb.embedQuery t with
  | error e =>
      simp only [addText, he] at h
      rcases List.mem_singleton.mp h with h1
      subst h1; rfl
  | ok v =>
      simp only [addText, he] at h
      rcases List.mem_cons.mp h with h1 | h1
      · subst h1; rfl
      rcases List.mem_cons.mp h1 with h2 | h2
      · subst h2; rfl
      rcases List.mem_singleton.mp h2 with h3
      subst h3; rfl

theorem ingestImages_events_ingest (emb : Embedder V) (files : String → Option Bytes) :
    ∀ (paths : List String) (store : Store V) (id : Nat) (ev : Event),
      ev ∈ (ingestImages emb files paths store id).2.1 → ingestEvent ev = true := by
  intro paths
  induction paths with
  | nil => intro store id ev h; simp [ingestImages] at h
  | cons p rest ih =>
      intro store id ev h
      rcases hA : addImage emb files store p id with ⟨s1, ev1, r1⟩
      cases r1 with
      | some e =>
          rw [ingestImages_cons_fail emb files p rest store id s1 ev1 e hA] at h
          exact addImage_events_ingest emb files store p id ev (by rw [hA]; exact h)
      | none =>
          rw [ingestImages_cons_ok emb files p rest store id s1 ev1 hA] at h
          rcases List.mem_append.mp h with h1 | h1
          · exact addImage_events_ingest emb files store p id ev (by rw [hA]; exact h1)
          · exact ih s1 (id + 1) ev h1

theorem ingestTexts_events_ingest (emb : Embedder V) :
    ∀ (ts : List String) (store : Store V) (id : Nat) (ev : Event),
      ev ∈ (ingestTexts emb ts store id).2.1 → ingestEvent ev = true := by
  intro ts
  induction ts with
  | nil => intro store id ev h; simp [ingestTexts] at h
  | cons t rest ih =>
      intro store id ev h
      rcases hA : addText emb store t id with ⟨s1, ev1, r1⟩
      cases r1 with
      | some e =>
          rw [ingestTexts_cons_fail emb t rest store id s1 ev1 e hA] at h
          exact addText_events_ingest emb store t id ev (by rw [hA]; exact h)
      | none =>
          rw [ingestTexts_cons_ok emb t rest store id s1 ev1 hA] at h
          rcases List.mem_append.mp h with h1 | h1
          · exact addText_events_ingest emb store t id ev (by rw [hA]; exact h1)
          · exact ih s1 (id + 1) ev h1

theorem addItems_events_ingest (emb : Embedder V) (files : String → Option Bytes)
    (storeExists : Bool) (store0 : Store V) (ev : Event)
    (h : ev ∈ (addItemsToVectorStore emb files storeExists store0).2.1) :
    ingestEvent ev = true := by
  cases storeExists with
  | true => simp [addItemsToVectorStore] at h
  | false =>
      rcases hI : ingestImages emb files images store0 0 with ⟨s1, ev1, r1⟩
      cases r1 with
      | some e =>
          rw [addItems_imgfail emb files store0 s1 ev1 e hI] at h
          exact ingestImages_events_ingest emb files images store0 0 ev (by rw [hI]; exact h)
      | none =>
          rw [addItems_imgok emb files store0 s1 ev1 hI] at h
          rcases List.mem_append.mp h with h1 | h1
          · exact ingestImages_events_ingest emb files images store0 0 ev (by rw [hI]; exact h1)
          · exact ingestTexts_events_ingest emb texts s1 images.length ev h1

/-! ## Claim theorems -/

/-- C1: with no persisted store, ingestion processes the 6 images then
the 3 texts with one continuing counter: the stored documents carry, in
catalog order, exactly the metadata with ids 0..5 (images, with their
paths) and 6..8 (texts, no path); the id list is exactly 0..8 and has no
duplicates. -/
theorem claim1_ids_zero_to_eight (emb : Embedder V) (files : String → Option Bytes)
    (h : (addItemsToVectorStore emb files false []).2.2 = none) :
    (addItemsToVectorStore emb files false []).1.map (fun q => q.2.metadata)
      = [⟨0, "image", some "images/dog.jpeg"⟩, ⟨1, "image", some "images/cat.jpg"⟩,
         ⟨2, "image", some "images/parrot.jpg"⟩, ⟨3, "image", some "images/iphone.jpeg"⟩,
         ⟨4, "image", some "images/steve.jpeg"⟩, ⟨5, "image", some "images/airpod.jpeg"⟩,
         ⟨6, "text", none⟩, ⟨7, "text", none⟩, ⟨8, "text", none⟩]
    ∧ (addItemsToVectorStore emb files false []).1.map (fun q => q.2.metadata.id)
        = [0, 1, 2, 3, 4, 5, 6, 7, 8]
    ∧ ((addItemsToVectorStore emb files false []).1.map (fun q => q.2.metadata.id)).Nodup := by
  have hX : addItemsToVectorStore emb files false []
      = ((addItemsToVectorStore emb files false []).1,
         (addItemsToVectorStore emb files false []).2.1, none) := by
    rw [← h]
  have hmap := addItems_success_map emb files [] _ _ hX
  simp only [List.map_nil, List.nil_append] at hmap
  have hlit : imageMetas 0 images ++ textMetas 6 texts
      = [⟨0, "image", some "images/dog.jpeg"⟩, ⟨1, "image", some "images/cat.jpg"⟩,
         ⟨2, "image", some "images/parrot.jpg"⟩, ⟨3, "image", some "images/iphone.jpeg"⟩,
         ⟨4, "image", some "images/steve.jpeg"⟩, ⟨5, "image", some "images/airpod.jpeg"⟩,
         ⟨6, "text", none⟩, ⟨7, "text", none⟩, ⟨8, "text", none⟩] := rfl
  have h1 := hmap.trans hlit
  refine ⟨h1, ?_, ?_⟩
  · have hcomp : (fun q : V × Document => q.2.metadata.id)
        = (fun m : Metadata => m.id) ∘ (fun q : V × Document => q.2.metadata) := rfl
    rw [hcomp, ← List.map_map, h1]
    rfl
  · have hcomp : (fun q : V × Document => q.2.metadata.id)
        = (fun m : Metadata => m.id) ∘ (fun q : V × Document => q.2.metadata) := rfl
    rw [hcomp, ← List.map_map, h1]
    decide

/-- C1 witness: a concrete successful ingestion run. -/
theorem claim1_witness :
    (addItemsToVectorStore emb0 files0 false []).2.2 = none
    ∧ ((addItemsToVectorStore emb0 files0 false []).1.map (fun q => q.2.metadata.id)
        = [0, 1, 2, 3, 4, 5, 6, 7, 8]) :=
  ⟨by decide, (claim1_ids_zero_to_eight emb0 files0 (by decide)).2.1⟩

/-- C2: when the persisted store exists at startup, the ingestion step is
a no-op: it returns the store handle unchanged with an empty event trace
(zero embedding calls, zero adds) and no error, and the run keeps the
loaded store contents. -/
theorem claim2_idempotent_ingestion (emb : Embedder V)
    (sf : Store V → V → Nat → Except String (List (Document × S)))
    (fs : FS V) (store : Store V) (hse : fs.storeExists = true) :
    addItemsToVectorStore emb fs.imageFiles fs.storeExists store = (store, [], none)
    ∧ (runMain emb sf fs).store = fs.loaded := by
  constructor
  · rw [hse]
    simp [addItemsToVectorStore]
  · rw [runMain_store, hse]
    simp [addItemsToVectorStore]

/-- C2 witness: a run against an existing persisted store. -/
theorem claim2_witness :
    fsT.storeExists = true ∧ (runMain emb0 sf0 fsT).store = fsT.loaded :=
  ⟨rfl, (claim2_idempotent_ingestion emb0 sf0 fsT [] rfl).2⟩

/-- C3: every document the ingestion step adds to the store has
`mediaType` exactly "image" (and then carries a `path`) or exactly
"text" (and then carries no `path`); anything else in the final store
was already in the initial store handle. -/
theorem claim3_metadata_invariant (emb : Embedder V) (files : String → Option Bytes)
    (storeExists : Bool) (store0 : Store V) (vd : V × Document)
    (h : vd ∈ (addItemsToVectorStore emb files storeExists store0).1) :
    vd ∈ store0
    ∨ (vd.2.metadata.mediaType = "image" ∧ ∃ q, vd.2.metadata.path = some q)
    ∨ (vd.2.metadata.mediaType = "text" ∧ vd.2.metadata.path = none) :=
  addItems_mem emb files storeExists store0 vd h

/-- C3 witness: the first ingested document of a concrete fresh run. -/
theorem claim3_witness :
    (((), (⟨"", ⟨0, "image", some "images/dog.jpeg"⟩⟩ : Document))
        ∈ (addItemsToVectorStore emb0 files0 false []).1)
    ∧ ((((), (⟨"", ⟨0, "image", some "images/dog.jpeg"⟩⟩ : Document))
          ∈ ([] : Store Unit))
       ∨ ((⟨"", ⟨0, "image", some "images/dog.jpeg"⟩⟩ : Document).metadata.mediaType = "image"
            ∧ ∃ q, (⟨"", ⟨0, "image", some "images/dog.jpeg"⟩⟩ : Document).metadata.path = some q)
       ∨ ((⟨"", ⟨0, "image", some "images/dog.jpeg"⟩⟩ : Document).metadata.mediaType = "text"
            ∧ (⟨"", ⟨0, "image", some "images/dog.jpeg"⟩⟩ : Document).metadata.path = none)) :=
  ⟨by decide,
   claim3_metadata_invariant emb0 files0 false []
     (((), (⟨"", ⟨0, "image", some "images/dog.jpeg"⟩⟩ : Document))) (by decide)⟩

/-- C6: a successful run is exactly ingestion-or-skip, then the single
hardcoded text query "Mammals" with K = 1, then one save of the store;
the save event closes the trace and occurs exactly once. -/
theorem claim6_run_order (emb : Embedder V)
    (sf : Store V → V → Nat → Except String (List (Document × S))) (fs : FS V)
    (h : (runMain emb sf fs).err = none) :
    (runMain emb sf fs).events
      = ((if fs.storeExists then Event.loadStore else Event.newStore)
          :: (addItemsToVectorStore emb fs.imageFiles fs.storeExists
                (if fs.storeExists then fs.loaded else [])).2.1)
        ++ (textSimilaritySearch emb
              (sf (addItemsToVectorStore emb fs.imageFiles fs.storeExists
                    (if fs.storeExists then fs.loaded else [])).1)
              fs.output "Mammals" 1).2.1
        ++ [Event.saveStore]
    ∧ (runMain emb sf fs).events.count Event.saveStore = 1 := by
  rcases hA : addItemsToVectorStore emb fs.imageFiles fs.storeExists
      (if fs.storeExists then fs.loaded else []) with ⟨s1, ev1, r1⟩
  cases r1 with
  | some e => simp [runMain, hA] at h
  | none =>
      rcases hQ : textSimilaritySearch emb (sf s1) fs.output "Mammals" 1
        with ⟨out2, evQ, rQ⟩
      cases rQ with
      | some e => simp [runMain, hA, hQ] at h
      | none =>
          have hIng : Event.saveStore ∉ ev1 := by
            intro hm
            have := addItems_events_ingest emb fs.imageFiles fs.storeExists
              (if fs.storeExists then fs.loaded else []) Event.saveStore
              (by rw [hA]; exact hm)
            simp [ingestEvent] at this
          have hQn : Event.saveStore ∉ evQ := by
            intro hm
            have := tss_events_query emb (sf s1) fs.output "Mammals" 1 Event.saveStore
              (by rw [hQ]; exact hm)
            simp [queryEvent] at this
          have h1 : ev1.count Event.saveStore = 0 := List.count_eq_zero.mpr hIng
          have h2 : evQ.count Event.saveStore = 0 := List.count_eq_zero.mpr hQn
          constructor
          · simp [runMain, hA, hQ]
          · simp only [runMain, hA, hQ]
            cases fs.storeExists <;>
              simp [List.count_append, List.count_cons, h1, h2]

/-- C6 witness: a concrete successful end-to-end run. -/
theorem claim6_witness :
    (runMain emb0 sf0 fs0).err = none
    ∧ (runMain emb0 sf0 fs0).events.count Event.saveStore = 1 :=
  ⟨by decide, (claim6_run_order emb0 sf0 fs0 (by decide)).2⟩

/-- C7: a file-read or embedding failure aborts ingestion at that item:
the loop result is exactly the failing call's result (so no later item
is read, embedded, added or retried), the failing item adds nothing, and
a failing image phase short-circuits the whole ingestion past the text
phase; items added before the failure stay in the store (the store is
threaded unchanged). -/
theorem claim7_failure_aborts (emb : Embedder V) (files : String → Option Bytes) :
    (∀ (store : Store V) (id : Nat) (p : String) (rest : List String)
        (s1 : Store V) (ev1 : List Event) (e : String),
        addImage emb files store p id = (s1, ev1, some e) →
        ingestImages emb files (p :: rest) store id = (s1, ev1, some e) ∧ s1 = store)
    ∧ (∀ (store : Store V) (id : Nat) (t : String) (rest : List String)
        (s1 : Store V) (ev1 : List Event) (e : String),
        addText emb store t id = (s1, ev1, some e) →
        ingestTexts emb (t :: rest) store id = (s1, ev1, some e) ∧ s1 = store)
    ∧ (∀ (store0 s1 : Store V) (ev1 : List Event) (e : String),
        ingestImages emb files images store0 0 = (s1, ev1, some e) →
        addItemsToVectorStore emb files false store0 = (s1, ev1, some e)) := by
  refine ⟨?_, ?_, ?_⟩
  · intro store id p rest s1 ev1 e hA
    exact ⟨ingestImages_cons_fail emb files p rest store id s1 ev1 e hA,
           addImage_fail_store emb files store p id s1 ev1 e hA⟩
  · intro store id t rest s1 ev1 e hA
    exact ⟨ingestTexts_cons_fail emb t rest store id s1 ev1 e hA,
           addText_fail_store emb store t id s1 ev1 e hA⟩
  · intro store0 s1 ev1 e hI
    exact addItems_imgfail emb files store0 s1 ev1 e hI

/-- C7 witness: a concrete failing read aborts the image loop at once. -/
theorem claim7_witness :
    ingestImages emb0 filesNone ["a", "b"] [] 0
        = ([], [Event.readFile "a"], some "ENOENT: no such file")
    ∧ ([] : Store Unit) = [] :=
  (claim7_failure_aborts emb0 filesNone).1 [] 0 "a" ["b"] [] [Event.readFile "a"]
    "ENOENT: no such file" (by decide)

/-- C10: the load-versus-create and skip-versus-ingest decisions agree:
with an existing persisted store the run keeps exactly the loaded
contents and never adds a vector; with no persisted store a successful
ingestion leaves the store holding exactly the nine catalog documents. -/
theorem claim10_decisions_agree (emb : Embedder V)
    (sf : Store V → V → Nat → Except String (List (Document × S))) (fs : FS V) :
    (fs.storeExists = true →
      (runMain emb sf fs).store = fs.loaded
      ∧ ∀ i, Event.addVectors i ∉ (runMain emb sf fs).events)
    ∧ (fs.storeExists = false →
      ∀ (s : Store V) (ev : List Event),
        addItemsToVectorStore emb fs.imageFiles false [] = (s, ev, none) →
        (runMain emb sf fs).store.map (fun q => q.2.metadata)
            = imageMetas 0 images ++ textMetas 6 texts
        ∧ (runMain emb sf fs).store.length = 9) := by
  constructor
  · intro hse
    have hA : addItemsToVectorStore emb fs.imageFiles true fs.loaded
        = (fs.loaded, [], none) := by
      simp [addItemsToVectorStore]
    constructor
    · rw [runMain_store]
      simp [hse, addItemsToVectorStore]
    · intro i hm
      rcases hQ : textSimilaritySearch emb (sf fs.loaded) fs.output "Mammals" 1
        with ⟨out2, evQ, rQ⟩
      have hq : Event.addVectors i ∉ evQ := by
        intro hmq
        have := tss_events_query emb (sf fs.loaded) fs.output "Mammals" 1
          (Event.addVectors i) (by rw [hQ]; exact hmq)
        simp [queryEvent] at this
      cases rQ with
      | some e =>
          simp only [runMain, hse, if_true, hA, hQ, List.nil_append] at hm
          rcases List.mem_cons.mp hm with h1 | h1
          · exact absurd h1 (by simp)
          · exact hq h1
      | none =>
          simp only [runMain, hse, if_true, hA, hQ, List.nil_append] at hm
          rcases List.mem_cons.mp hm with h1 | h1
          · exact absurd h1 (by simp)
          rcases List.mem_append.mp h1 with h2 | h2
          · exact hq h2
          · exact absurd (List.mem_singleton.mp h2) (by simp)
  · intro hse s ev hadd
    have hsm := addItems_success_map emb fs.imageFiles [] s ev hadd
    simp only [List.map_nil, List.nil_append] at hsm
    have hrs : (runMain emb sf fs).store = s := by
      rw [runMain_store, hse]
      simp only [if_false, Bool.false_eq_true]
      rw [hadd]
    have hlen : s.length = 9 := by
      have h9 : (s.map (fun q => q.2.metadata)).length = 9 := by rw [hsm]; rfl
      simpa using h9
    rw [hrs]
    exact ⟨hsm, hlen⟩

/-- C10 witness: a concrete fresh run ends with the nine catalog items. -/
theorem claim10_witness : (runMain emb0 sf0 fs0).store.length = 9 :=
  (((claim10_decisions_agree emb0 sf0 fs0).2 rfl
      (addItemsToVectorStore emb0 fs0.imageFiles false []).1
      (addItemsToVectorStore emb0 fs0.imageFiles false []).2.1
      (by decide))).2

/-! ## Clearing and rendering lemmas -/

theorem unlinkEach_all_files :
    ∀ es : List Entry, (∀ e ∈ es, e.isDir = false) →
      unlinkEach es = ([], es.map (fun e => Event.unlink e.name), none) := by
  intro es
  induction es with
  | nil => intro _; rfl
  | cons e rest ih =>
      intro h
      have hd : e.isDir = false := h e (by simp)
      have hr := ih (fun x hx => h x (by simp [hx]))
      simp [unlinkEach, hd, hr]

theorem unlinkEach_dir_err :
    ∀ es : List Entry, (∃ e ∈ es, e.isDir = true) →
      ((unlinkEach es).2.2).isSome = true := by
  intro es
  induction es with
  | nil => intro h; simp at h
  | cons e rest ih =>
      intro h
      by_cases hd : e.isDir
      · simp [unlinkEach, hd]
      · rcases h with ⟨e2, he2, hd2⟩
        rcases List.mem_cons.mp he2 with h1 | h1
        · subst h1; exact absurd hd2 (by simp [hd])
        · rcases hU : unlinkEach rest with ⟨dd, evs, r⟩
          have := ih ⟨e2, h1, hd2⟩
          rw [hU] at this
          simp [unlinkEach, hd, hU, this]

theorem printResults_all_text :
    ∀ (results : List (Document × S)) (out : Option (List Entry)),
      (∀ pr ∈ results, pr.1.metadata.mediaType = "text") →
      (printResults results out).1 = out ∧ (printResults results out).2.2 = none := by
  intro results
  induction results with
  | nil => intro out _; exact ⟨rfl, rfl⟩
  | cons pr rest ih =>
      intro out h
      have ht : pr.1.metadata.mediaType = "text" := h pr (by simp)
      have ih2 := ih out (fun x hx => h x (by simp [hx]))
      rcases hP : printResults rest out with ⟨o, evs, r⟩
      rw [hP] at ih2
      have h1 : o = out := ih2.1
      have h2 : r = none := ih2.2
      simp [printResults, ht, hP, h1, h2]

/-! ## More claim theorems -/

/-- C9: `clearDirectory` is delete-only and non-recursive: on a missing
directory it throws without creating anything; it throws whenever some
entry is itself a directory; and when every entry is a regular file it
unlinks each entry one by one, leaving the directory empty. -/
theorem claim9_clear_nonrecursive :
    clearDirectory none = (none, [], some "ENOENT: no such directory")
    ∧ (∀ es : List Entry, (∃ e ∈ es, e.isDir = true) →
        ((clearDirectory (some es)).2.2).isSome = true)
    ∧ (∀ es : List Entry, (∀ e ∈ es, e.isDir = false) →
        clearDirectory (some es)
          = (some [], es.map (fun e => Event.unlink e.name), none)) := by
  refine ⟨rfl, ?_, ?_⟩
  · intro es h
    rcases hU : unlinkEach es with ⟨dd, evs, r⟩
    have := unlinkEach_dir_err es h
    rw [hU] at this
    simp [clearDirectory, hU]
    simpa using this
  · intro es h
    simp [clearDirectory, unlinkEach_all_files es h]

/-- C9 witness: a directory entry makes clearing throw; an all-file
directory is emptied by per-entry unlinks. -/
theorem claim9_witness :
    ((clearDirectory (some [⟨"sub", true, []⟩])).2.2).isSome = true
    ∧ clearDirectory (some [⟨"a.png", false, [7]⟩])
        = (some [], [Event.unlink "a.png"], none) :=
  ⟨claim9_clear_nonrecursive.2.1 [⟨"sub", true, []⟩] (by decide),
   claim9_clear_nonrecursive.2.2 [⟨"a.png", false, [7]⟩] (by decide)⟩

/-- C4: both query flows clear the output directory first: a missing
output directory fails the query before any embedding or search work,
the trace starts with the clearing unlinks, and a successful query whose
results are all text documents leaves the output directory empty. -/
theorem claim4_clear_before_query (emb : Embedder V)
    (sf : V → Nat → Except String (List (Document × S)))
    (files : String → Option Bytes) :
    (∀ text k, textSimilaritySearch emb sf none text k
        = (none, [], some "ENOENT: no such directory"))
    ∧ (∀ p k, imageSimilaritySearch emb sf files none p k
        = (none, [], some "ENOENT: no such directory"))
    ∧ (∀ out text k, ∃ tail,
        (textSimilaritySearch emb sf out text k).2.1
            = (clearDirectory out).2.1 ++ tail
        ∧ ∀ e ∈ (clearDirectory out).2.1, ∃ n, e = Event.unlink n)
    ∧ (∀ out p k, ∃ tail,
        (imageSimilaritySearch emb sf files out p k).2.1
            = (clearDirectory out).2.1 ++ tail
        ∧ ∀ e ∈ (clearDirectory out).2.1, ∃ n, e = Event.unlink n)
    ∧ (∀ (es : List Entry) (text : String) (k : Nat) (v : V)
          (results : List (Document × S)),
        (∀ e ∈ es, e.isDir = false) →
        emb.embedQuery text = Except.ok v →
        sf v k = Except.ok results →
        (∀ pr ∈ results, pr.1.metadata.mediaType = "text") →
        (textSimilaritySearch emb sf (some es) text k).1 = some []
        ∧ (textSimilaritySearch emb sf (some es) text k).2.2 = none) := by
  refine ⟨fun text k => rfl, fun p k => rfl, ?_, ?_, ?_⟩
  · intro out text k
    have hcl := clearDirectory_events_unlink out
    rcases hC : clearDirectory out with ⟨out1, evC, rC⟩
    have hcl2 : ∀ e2 ∈ evC, ∃ n, e2 = Event.unlink n := by
      intro e2 h2
      exact hcl e2 (by rw [hC]; exact h2)
    cases rC with
    | some e => exact ⟨[], by simp [textSimilaritySearch, hC], hcl2⟩
    | none =>
        cases he : emb.embedQuery text with
        | error e =>
            exact ⟨[Event.log "Performing text similarity search.", Event.embedText text],
              by simp [textSimilaritySearch, hC, he], hcl2⟩
        | ok v =>
            cases hs : sf v k with
            | error e =>
                exact ⟨[Event.log "Performing text similarity search.",
                        Event.embedText text, Event.searchCall k],
                  by simp [textSimilaritySearch, hC, he, hs], hcl2⟩
            | ok results =>
                rcases hP : printResults results out1 with ⟨out2, evP, rP⟩
                exact ⟨[Event.log "Performing text similarity search.",
                        Event.embedText text, Event.searchCall k,
                        Event.log ("Similarity search results for text query: " ++ text)]
                       ++ evP,
                  by simp [textSimilaritySearch, hC, he, hs, hP, List.append_assoc], hcl2⟩
  · intro out p k
    have hcl := clearDirectory_events_unlink out
    rcases hC : clearDirectory out with ⟨out1, evC, rC⟩
    have hcl2 : ∀ e2 ∈ evC, ∃ n, e2 = Event.unlink n := by
      intro e2 h2
      exact hcl e2 (by rw [hC]; exact h2)
    cases rC with
    | some e => exact ⟨[], by simp [imageSimilaritySearch, hC], hcl2⟩
    | none =>
        cases hfp : files p with
        | none =>
            exact ⟨[Event.log "Performing image similarity search.", Event.readFile p],
              by simp [imageSimilaritySearch, hC, hfp], hcl2⟩
        | some img =>
            cases he : emb.embedImageQuery img with
            | error e =>
                exact ⟨[Event.log "Performing image similarity search.",
                        Event.readFile p, Event.embedImage img],
                  by simp [imageSimilaritySearch, hC, hfp, he], hcl2⟩
            | ok v =>
                cases hs : sf v k with
                | error e =>
                    exact ⟨[Event.log "Performing image similarity search.",
                            Event.readFile p, Event.embedImage img, Event.searchCall k],
                      by simp [imageSimilaritySearch, hC, hfp, he, hs], hcl2⟩
                | ok results =>
                    rcases hP : printResults results out1 with ⟨out2, evP, rP⟩
                    exact ⟨[Event.log "Performing image similarity search.",
                            Event.readFile p, Event.embedImage img, Event.searchCall k,
                            Event.log ("Similarity search results for image query: " ++ p)]
                           ++ evP,
                      by simp [imageSimilaritySearch, hC, hfp, he, hs, hP,
                        List.append_assoc], hcl2⟩
  · intro es text k v results hdirs he hs htext
    have hC : clearDirectory (some es)
        = (some [], es.map (fun e => Event.unlink e.name), none) := by
      simp [clearDirectory, unlinkEach_all_files es hdirs]
    have hPr := printResults_all_text results (some ([] : List Entry)) htext
    rcases hP : printResults results (some ([] : List Entry)) with ⟨o, evs, r⟩
    rw [hP] at hPr
    have h1 : o = some [] := hPr.1
    have h2 : r = none := hPr.2
    constructor <;> simp [textSimilaritySearch, hC, he, hs, hP, h1, h2]

/-- C4 witness: a concrete text query over an all-text result list. -/
theorem claim4_witness :
    (textSimilaritySearch emb0
        (fun _ _k => Except.ok [((⟨"Dogs are domesticated mammals.",
            ⟨6, "text", none⟩⟩ : Document), (0 : Nat))])
        (some [⟨"old.png", false, [1]⟩]) "Mammals" 1).1 = some []
    ∧ (textSimilaritySearch emb0
        (fun _ _k => Except.ok [((⟨"Dogs are domesticated mammals.",
            ⟨6, "text", none⟩⟩ : Document), (0 : Nat))])
        (some [⟨"old.png", false, [1]⟩]) "Mammals" 1).2.2 = none :=
  (claim4_clear_before_query emb0
      (fun _ _k => Except.ok [((⟨"Dogs are domesticated mammals.",
          ⟨6, "text", none⟩⟩ : Document), (0 : Nat))]) files0).2.2.2.2
    [⟨"old.png", false, [1]⟩] "Mammals" 1 ()
    [((⟨"Dogs are domesticated mammals.", ⟨6, "text", none⟩⟩ : Document), (0 : Nat))]
    (by decide) rfl rfl (by decide)

/-- C5: result rendering processes the results in store order and, per
result, prints the metadata, additionally prints the content for a text
document, and for an image document writes the base64-decoded content to
the output directory under the last path segment of the stored path:
`printResults` equals the spec-side fold whenever every image result
carries a path and the output directory exists. -/
theorem claim5_render_refinement (results : List (Document × S)) (es : List Entry)
    (h : ∀ pr ∈ results, pr.1.metadata.mediaType = "image" → pr.1.metadata.path ≠ none) :
    printResults results (some es)
      = (some (renderAllOutSpec es results), renderAllEventsSpec results, none) := by
  induction results generalizing es with
  | nil => simp [printResults, renderAllOutSpec, renderAllEventsSpec]
  | cons pr rest ih =>
      have hrest : ∀ pr2 ∈ rest, pr2.1.metadata.mediaType = "image" →
          pr2.1.metadata.path ≠ none := fun x hx => h x (by simp [hx])
      by_cases ht : pr.1.metadata.mediaType = "text"
      · simp [printResults, ht, ih es hrest, renderAllOutSpec, renderOutSpec,
          renderAllEventsSpec, renderEventsSpec]
      · by_cases hi : pr.1.metadata.mediaType = "image"
        · have hp := h pr (by simp) hi
          cases hpath : pr.1.metadata.path with
          | none => exact absurd hpath hp
          | some p =>
              simp [printResults, ht, hi, hpath, writeFileOut,
                ih (writeEntry es (lastSegment p) (decB64 pr.1.pageContent.data)) hrest,
                renderAllOutSpec, renderOutSpec, renderAllEventsSpec, renderEventsSpec]
        · simp [printResults, ht, hi, ih es hrest, renderAllOutSpec, renderOutSpec,
            renderAllEventsSpec, renderEventsSpec]

/-- C5 witness: rendering one text and one image result. -/
theorem claim5_witness :
    printResults [((⟨"hello", ⟨6, "text", none⟩⟩ : Document), (0 : Nat)),
                  ((d0 : Document), (0 : Nat))] (some [])
      = (some (renderAllOutSpec [] [((⟨"hello", ⟨6, "text", none⟩⟩ : Document), (0 : Nat)),
              ((d0 : Document), (0 : Nat))]),
         renderAllEventsSpec [((⟨"hello", ⟨6, "text", none⟩⟩ : Document), (0 : Nat)),
              ((d0 : Document), (0 : Nat))],
         none) :=
  claim5_render_refinement
    [((⟨"hello", ⟨6, "text", none⟩⟩ : Document), (0 : Nat)),
     ((d0 : Document), (0 : Nat))] [] (by decide)

/-- C8: for an image ingested by `addImage`, querying with the same image
and K = 1 (under the store-defined guarantee that the search returns that
stored document) renders a file whose bytes are exactly the original
image bytes: base64 encoding at ingestion and decoding at rendering are
mutually inverse on the stored content. -/
theorem claim8_image_roundtrip (emb : Embedder V)
    (sf : V → Nat → Except String (List (Document × S)))
    (files : String → Option Bytes) (store0 : Store V) (qpath : String)
    (img : Bytes) (v : V) (d : Document) (score : S) (es : List Entry) (id0 : Nat)
    (hb : ∀ b ∈ img, b < 256)
    (hf : files qpath = some img)
    (he : emb.embedImageQuery img = Except.ok v)
    (haddS : (addImage emb files store0 qpath id0).1 = store0 ++ [(v, d)])
    (hs : sf v 1 = Except.ok [(d, score)])
    (hdirs : ∀ e ∈ es, e.isDir = false) :
    decB64 d.pageContent.data = img
    ∧ (imageSimilaritySearch emb sf files (some es) qpath 1).1
        = some [⟨lastSegment qpath, false, img⟩]
    ∧ (imageSimilaritySearch emb sf files (some es) qpath 1).2.2 = none := by
  have hcomp : (addImage emb files store0 qpath id0).1
      = store0 ++ [(v, ⟨String.mk (encB64 img), ⟨id0, "image", some qpath⟩⟩)] := by
    simp [addImage, hf, he]
  have hd : d = ⟨String.mk (encB64 img), ⟨id0, "image", some qpath⟩⟩ := by
    have h2 := List.append_cancel_left (hcomp.symm.trans haddS)
    simp only [List.cons.injEq, and_true, Prod.mk.injEq, true_and] at h2
    exact h2.symm
  have hdata : d.pageContent.data = encB64 img := by rw [hd]
  have hround : decB64 d.pageContent.data = img := by
    rw [hdata]
    exact decB64_encB64 img hb
  have hmeta : d.metadata = ⟨id0, "image", some qpath⟩ := by rw [hd]
  have hC : clearDirectory (some es)
      = (some [], es.map (fun e => Event.unlink e.name), none) := by
    simp [clearDirectory, unlinkEach_all_files es hdirs]
  have hP : printResults [(d, score)] (some ([] : List Entry))
      = (some [⟨lastSegment qpath, false, img⟩],
         [Event.printMetadata d.metadata, Event.writeOutput (lastSegment qpath)],
         none) := by
    simp [printResults, hmeta, writeFileOut, writeEntry, hround]
  refine ⟨hround, ?_, ?_⟩ <;>
    simp [imageSimilaritySearch, hC, hf, he, hs, hP]

/-- C8 witness: a concrete three-byte image round-trips through store
and query, reproducing the original bytes in the output directory. -/
theorem claim8_witness :
    decB64 d0.pageContent.data = [1, 2, 3]
    ∧ (imageSimilaritySearch emb0 sf1 files1 (some []) "images/dog.jpeg" 1).1
        = some [⟨lastSegment "images/dog.jpeg", false, [1, 2, 3]⟩]
    ∧ (imageSimilaritySearch emb0 sf1 files1 (some []) "images/dog.jpeg" 1).2.2
        = none :=
  claim8_image_roundtrip emb0 sf1 files1 [] "images/dog.jpeg" [1, 2, 3] () d0 0 [] 0
    (by decide) (by decide) rfl (by decide) rfl (by decide)

end Multimodal
